import Mathlib

/-!
Verification of ivy's arbitrary-precision transcendental math engine
(`value/sqrt.go`, the asin/acos/atan file, and the `)prec` special command).

Modelling choices:
* Arbitrary-precision `big.Float` values are embedded as exact rationals `ℚ`;
  rounding at the working precision is abstracted away.  All the properties
  proved below are structural (branch selection, error propagation, exact
  special cases, recursion depth), so they do not depend on rounding.
* `Errorf` panics with a `value.Error`; a function that may raise one is
  embedded as `Except String ℚ`, and Go's panic propagation is the `Except`
  error propagation.
* The recursive self-calls of `floatAtan` (sign reduction and the Euler
  near-one rewrite) are embedded with an explicit fuel argument; the
  termination theorem below shows fuel 4 (at most 3 nested self-calls)
  suffices whenever the computed √2 is accurate to two decimal places.
-/

/-- Modelled from the spec: the convergence loop controller (`newLoop` /
`terminate`) and the precision-scaled constant `floatPi` are referenced by the
source but their code is not in the repository slice.  The results of the
loop-driven iterations (the Newton square-root loop, the small-argument atan
Taylor series, the large-argument asymptotic series) and the constant π are
therefore abstracted as parameters of the embedding. -/
structure FloatOps where
  pi : ℚ
  sqrtNewton : ℚ → ℚ
  atanSmall : ℚ → ℚ
  atanLarge : ℚ → ℚ

/-- `floatSqrt` from `value/sqrt.go`: reject negative input, return zero for
zero input without iterating, otherwise run the Newton loop. -/
def floatSqrt (ops : FloatOps) (x : ℚ) : Except String ℚ :=
  if x < 0 then .error "square root of negative number"
  else if x = 0 then .ok 0
  else .ok (ops.sqrtNewton x)

/-- `floatAtan` from the asin/acos/atan source file, with explicit fuel for
the two recursive reductions.  Branch order follows the source: sign
reduction first, then the Euler near-one rewrite (`|1 - x| < 0.5`), then the
large-argument series (`x > 1`), else the small-argument Taylor series. -/
def floatAtanF (ops : FloatOps) : Nat → ℚ → Except String ℚ
  | 0, _ => .error "atan: recursion fuel exhausted"
  | n + 1, x =>
    if x < 0 then
      (floatAtanF ops n (-x)).map (fun r => -r)
    else if |1 - x| < 1/2 then
      match floatSqrt ops 2 with
      | .error e => .error e
      | .ok s =>
          (floatAtanF ops n ((x - (s - 1)) / (1 + x * (s - 1)))).map
            (fun r => ops.pi / 8 + r)
    else if 1 < x then .ok (ops.atanLarge x)
    else .ok (ops.atanSmall x)

/-- Top-level `floatAtan`: fuel 4 covers the statically bounded recursion
depth (sign reduction plus at most two Euler rewrites). -/
def floatAtan (ops : FloatOps) (x : ℚ) : Except String ℚ :=
  floatAtanF ops 4 x

/-- `floatAsin`: special-case x = ±1, otherwise asin(x) = atan(x/√(1-x²)). -/
def floatAsin (ops : FloatOps) (x : ℚ) : Except String ℚ :=
  if x = 1 then .ok (ops.pi / 2)
  else if x = -1 then .ok (-(ops.pi / 2))
  else
    match floatSqrt ops (1 - x * x) with
    | .error e => .error e
    | .ok s => floatAtan ops (x / s)

/-- `floatAcos`: acos(x) = π/2 − asin(x). -/
def floatAcos (ops : FloatOps) (x : ℚ) : Except String ℚ :=
  match floatAsin ops x with
  | .error e => .error e
  | .ok a => .ok (ops.pi / 2 - a)

/-- The square root of two computed by the Newton loop is accurate to two
decimal places.  This holds at every working precision of at least a few
bits (√2 = 1.41421356…), and is what makes the atan recursion depth
statically bounded. -/
def GoodOps (ops : FloatOps) : Prop :=
  141/100 ≤ ops.sqrtNewton 2 ∧ ops.sqrtNewton 2 ≤ 142/100

instance (ops : FloatOps) : Decidable (GoodOps ops) :=
  inferInstanceAs (Decidable (_ ∧ _))

/-- A concrete instantiation of the abstract loop results, used to witness
the hypothesis-bearing theorems on concrete inputs. -/
def opsQ : FloatOps where
  pi := 314159/100000
  sqrtNewton := fun x => if x = 2 then 141421/100000 else x
  atanSmall := fun x => x
  atanLarge := fun _ => 0

lemma goodOpsQ : GoodOps opsQ := by
  constructor <;> norm_num [GoodOps, opsQ]

/-- Whether an embedded computation returned a result (no error raised, and
for `floatAtanF` also: the recursion terminated within the given fuel). -/
def isOkB : Except String ℚ → Bool
  | .ok _ => true
  | .error _ => false

/-- Interpreter configuration slice relevant to `)prec`. -/
structure Config where
  floatPrec : Nat

/-- The `)prec n` arm of `special()` in `parse/special.go`, for the case
where a number argument is present.  `nextDecimalNumber` guarantees the
argument is a non-negative integer; `p.errorf` panics before
`SetFloatPrec` runs, so on error the configuration is returned unchanged. -/
def precCommand (c : Config) (prec : Nat) : Config × Option String :=
  if prec = 0 ∨ 1000000 < prec then
    (c, some ("illegal prec " ++ toString prec))
  else ({ floatPrec := prec }, none)

/- ### Helper lemmas -/

lemma floatSqrt_two (ops : FloatOps) :
    floatSqrt ops 2 = .ok (ops.sqrtNewton 2) := by
  norm_num [floatSqrt]

lemma isOkB_map (f : ℚ → ℚ) (e : Except String ℚ) :
    isOkB (e.map f) = isOkB e := by
  cases e <;> rfl

lemma atanF_succ (ops : FloatOps) (n : Nat) (x : ℚ) :
    floatAtanF ops (n + 1) x =
      if x < 0 then
        (floatAtanF ops n (-x)).map (fun r => -r)
      else if |1 - x| < 1/2 then
        (floatAtanF ops n
            ((x - (ops.sqrtNewton 2 - 1)) / (1 + x * (ops.sqrtNewton 2 - 1)))).map
          (fun r => ops.pi / 8 + r)
      else if 1 < x then .ok (ops.atanLarge x)
      else .ok (ops.atanSmall x) := by
  rw [floatAtanF, floatSqrt_two]

lemma atanF_neg (ops : FloatOps) (n : Nat) (x : ℚ) (hx : x < 0) :
    floatAtanF ops (n + 1) x = (floatAtanF ops n (-x)).map (fun r => -r) := by
  rw [atanF_succ, if_pos hx]

lemma atanF_euler (ops : FloatOps) (n : Nat) (x : ℚ)
    (h0 : 0 ≤ x) (h1 : |1 - x| < 1/2) :
    floatAtanF ops (n + 1) x =
      (floatAtanF ops n
          ((x - (ops.sqrtNewton 2 - 1)) / (1 + x * (ops.sqrtNewton 2 - 1)))).map
        (fun r => ops.pi / 8 + r) := by
  rw [atanF_succ, if_neg (not_lt.mpr h0), if_pos h1]

lemma atanF_base (ops : FloatOps) (n : Nat) (x : ℚ)
    (h0 : 0 ≤ x) (h1 : ¬ |1 - x| < 1/2) :
    floatAtanF ops (n + 1) x =
      if 1 < x then .ok (ops.atanLarge x) else .ok (ops.atanSmall x) := by
  rw [atanF_succ, if_neg (not_lt.mpr h0), if_neg h1]

lemma atanF_base_ok (ops : FloatOps) (n : Nat) (x : ℚ)
    (h0 : 0 ≤ x) (h1 : ¬ |1 - x| < 1/2) :
    isOkB (floatAtanF ops (n + 1) x) = true := by
  rw [atanF_base ops n x h0 h1]
  split <;> rfl

lemma atanF_mono (ops : FloatOps) :
    ∀ n m x, n ≤ m → isOkB (floatAtanF ops n x) = true →
      floatAtanF ops m x = floatAtanF ops n x := by
  intro n
  induction n with
  | zero => intro m x _ hok; exact absurd hok (by simp [floatAtanF, isOkB])
  | succ n ih =>
      intro m x hnm hok
      obtain ⟨m', rfl⟩ : ∃ m', m = m' + 1 :=
        ⟨m - 1, by omega⟩
      have hnm' : n ≤ m' := by omega
      rw [atanF_succ ops m', atanF_succ ops n]
      rw [atanF_succ ops n] at hok
      by_cases hx : x < 0
      · simp only [if_pos hx] at hok ⊢
        rw [isOkB_map] at hok
        rw [ih m' (-x) hnm' hok]
      · simp only [if_neg hx] at hok ⊢
        by_cases he : |1 - x| < 1/2
        · simp only [if_pos he] at hok ⊢
          rw [isOkB_map] at hok
          rw [ih m' _ hnm' hok]
        · simp only [if_neg he]

/-- Bounds for one Euler rewrite step: starting from the crossover region
`(1/2, 3/2)` with `y = √2 − 1` accurate to two decimals, the transformed
argument is positive and below 1.09. -/
lemma euler_step_lt (y x : ℚ) (hy1 : 41/100 ≤ y) (hy2 : y ≤ 42/100)
    (hx1 : 1/2 < x) (hx2 : x < 3/2) :
    0 < (x - y) / (1 + x * y) ∧ (x - y) / (1 + x * y) < 109/100 := by
  have hden : 0 < 1 + x * y := by nlinarith
  constructor
  · apply div_pos (by linarith) hden
  · rw [div_lt_iff₀ hden]
    nlinarith

/-- Bounds for a second Euler rewrite step: starting below 1.09, the
transformed argument lands strictly below the crossover at 1/2, so a third
rewrite never happens. -/
lemma euler_step_small (y x : ℚ) (hy1 : 41/100 ≤ y) (hy2 : y ≤ 42/100)
    (hx1 : 1/2 < x) (hx2 : x < 109/100) :
    0 < (x - y) / (1 + x * y) ∧ (x - y) / (1 + x * y) < 1/2 := by
  have hden : 0 < 1 + x * y := by nlinarith
  constructor
  · apply div_pos (by linarith) hden
  · rw [div_lt_iff₀ hden]
    nlinarith

lemma crossover_bounds {x : ℚ} (_h0 : 0 ≤ x) (h1 : |1 - x| < 1/2) :
    1/2 < x ∧ x < 3/2 := by
  rw [abs_lt] at h1
  constructor <;> linarith [h1.1, h1.2]

lemma not_crossover_of_le_half {x : ℚ} (h : x < 1/2) : ¬ |1 - x| < 1/2 := by
  rw [abs_lt]
  push_neg
  intro h1
  linarith

/-- For an accurate √2 and nonnegative input, fuel 3 (at most two Euler
self-calls) already suffices for the atan recursion to terminate. -/
lemma atanF_ok3 (ops : FloatOps) (h : GoodOps ops) (x : ℚ) (h0 : 0 ≤ x) :
    isOkB (floatAtanF ops 3 x) = true := by
  obtain ⟨hy1, hy2⟩ := h
  set y := ops.sqrtNewton 2 - 1 with hy
  have hy1' : 41/100 ≤ y := by rw [hy]; linarith
  have hy2' : y ≤ 42/100 := by rw [hy]; linarith
  by_cases he1 : |1 - x| < 1/2
  · obtain ⟨hx1, hx2⟩ := crossover_bounds h0 he1
    rw [atanF_euler ops 2 x h0 he1, isOkB_map]
    set t := (x - y) / (1 + x * y) with ht
    obtain ⟨ht0, ht109⟩ := euler_step_lt y x hy1' hy2' hx1 hx2
    by_cases he2 : |1 - t| < 1/2
    · obtain ⟨htc1, _⟩ := crossover_bounds ht0.le he2
      rw [atanF_euler ops 1 t ht0.le he2, isOkB_map]
      set t2 := (t - y) / (1 + t * y) with ht2
      obtain ⟨ht20, ht2half⟩ := euler_step_small y t hy1' hy2' htc1 ht109
      exact atanF_base_ok ops 0 t2 ht20.le (not_crossover_of_le_half ht2half)
    · exact atanF_base_ok ops 1 t ht0.le he2
  · exact atanF_base_ok ops 2 x h0 he1

/-- For an accurate √2, fuel 4 suffices for every input: one extra level
absorbs the sign reduction. -/
lemma atanF_ok4 (ops : FloatOps) (h : GoodOps ops) (x : ℚ) :
    isOkB (floatAtanF ops 4 x) = true := by
  by_cases hx : x < 0
  · rw [atanF_neg ops 3 x hx, isOkB_map]
    exact atanF_ok3 ops h (-x) (by linarith)
  · have h0 : 0 ≤ x := not_lt.mp hx
    by_cases he1 : |1 - x| < 1/2
    · rw [atanF_euler ops 3 x h0 he1, isOkB_map]
      obtain ⟨hx1, hx2⟩ := crossover_bounds h0 he1
      obtain ⟨hy1, hy2⟩ := h
      have := euler_step_lt (ops.sqrtNewton 2 - 1) x (by linarith) (by linarith) hx1 hx2
      exact atanF_ok3 ops ⟨hy1, hy2⟩ _ this.1.le
    · exact atanF_base_ok ops 3 x h0 he1

/- ### Claim theorems -/

/-- C1: for every non-negative input x with |1 − x| < 0.5 (after sign
reduction), atan(x) is computed by the Euler identity as
π/8 + atan((x−y)/(1+xy)) with y = √2 − 1, recursing on the transformed
argument instead of summing the direct Taylor series. -/
theorem C1_atan_euler_identity (ops : FloatOps) (n : Nat) (x : ℚ)
    (h0 : 0 ≤ x) (h1 : |1 - x| < 1/2) :
    floatAtanF ops (n + 1) x =
      (floatAtanF ops n
          ((x - (ops.sqrtNewton 2 - 1)) / (1 + x * (ops.sqrtNewton 2 - 1)))).map
        (fun r => ops.pi / 8 + r) :=
  atanF_euler ops n x h0 h1

theorem C1_atan_euler_identity_witness :
    (0:ℚ) ≤ 1 ∧ |1 - (1:ℚ)| < 1/2 ∧
      floatAtanF opsQ 4 1 =
        (floatAtanF opsQ 3
            ((1 - (opsQ.sqrtNewton 2 - 1)) / (1 + 1 * (opsQ.sqrtNewton 2 - 1)))).map
          (fun r => opsQ.pi / 8 + r) :=
  ⟨by norm_num, by norm_num,
    C1_atan_euler_identity opsQ 3 1 (by norm_num) (by norm_num)⟩

/-- C2: atan(−x) = −atan(x) exactly; a negative input is handled by negating
it, computing atan of the positive value, and negating the result.  The
hypotheses pin the two facts about the abstracted loop results that the real
code provides: the Newton √2 is accurate to two decimals, and the Taylor
series at 0 sums to 0. -/
theorem C2_atan_odd (ops : FloatOps) (hg : GoodOps ops)
    (hz : ops.atanSmall 0 = 0) (x : ℚ) :
    floatAtan ops (-x) = (floatAtan ops x).map (fun r => -r) := by
  unfold floatAtan
  rcases lt_trichotomy x 0 with hx | rfl | hx
  · have hnx : (0:ℚ) ≤ -x := by linarith
    rw [atanF_neg ops 3 x hx]
    rw [atanF_mono ops 3 4 (-x) (by omega) (atanF_ok3 ops hg (-x) hnx)]
    cases floatAtanF ops 3 (-x) with
    | error e => rfl
    | ok v => simp [Except.map]
  · have h00 : floatAtanF ops 4 0 = .ok (ops.atanSmall 0) := by
      rw [atanF_base ops 3 0 le_rfl (by norm_num)]
      norm_num
    rw [neg_zero, h00, hz]
    simp [Except.map]
  · have hneg : -x < 0 := by linarith
    rw [atanF_neg ops 3 (-x) hneg, neg_neg]
    rw [atanF_mono ops 3 4 x (by omega) (atanF_ok3 ops hg x hx.le)]

theorem C2_atan_odd_witness :
    GoodOps opsQ ∧ opsQ.atanSmall 0 = 0 ∧
      floatAtan opsQ (-(7/5 : ℚ)) = (floatAtan opsQ (7/5)).map (fun r => -r) :=
  ⟨goodOpsQ, rfl, C2_atan_odd opsQ goodOpsQ rfl (7/5)⟩

/-- C3: for x outside [−1, 1], asin(x) and acos(x) fail with the domain
error raised inside the square-root call on 1 − x², propagated up
unmodified; no partial result is returned. -/
theorem C3_asin_acos_domain_error (ops : FloatOps) (x : ℚ) (h : 1 < |x|) :
    floatAsin ops x = .error "square root of negative number" ∧
      floatAcos ops x = .error "square root of negative number" := by
  have hx2 : 1 - x * x < 0 := by
    have h1 : 1 * 1 < |x| * |x| := by
      apply mul_lt_mul' h.le h (by norm_num) (by linarith)
    rw [abs_mul_abs_self, one_mul] at h1
    linarith
  have hne1 : x ≠ 1 := by
    intro h'; rw [h'] at h; norm_num at h
  have hnem1 : x ≠ -1 := by
    intro h'; rw [h'] at h; norm_num at h
  have hs : floatSqrt ops (1 - x * x) = .error "square root of negative number" := by
    rw [floatSqrt, if_pos hx2]
  have hasin : floatAsin ops x = .error "square root of negative number" := by
    rw [floatAsin, if_neg hne1, if_neg hnem1, hs]
  refine ⟨hasin, ?_⟩
  rw [floatAcos, hasin]

theorem C3_asin_acos_domain_error_witness :
    1 < |(2:ℚ)| ∧
      (floatAsin opsQ 2 = .error "square root of negative number" ∧
        floatAcos opsQ 2 = .error "square root of negative number") :=
  ⟨by norm_num, C3_asin_acos_domain_error opsQ 2 (by norm_num)⟩

/-- C4: asin(1) returns exactly π/2 and asin(−1) exactly −π/2 (with π at the
working precision), by direct special cases that bypass the
atan(x/√(1−x²)) formula. -/
theorem C4_asin_boundary (ops : FloatOps) :
    floatAsin ops 1 = .ok (ops.pi / 2) ∧
      floatAsin ops (-1) = .ok (-(ops.pi / 2)) := by
  constructor
  · rw [floatAsin, if_pos rfl]
  · rw [floatAsin, if_neg (by norm_num), if_pos rfl]

/-- C5: acos(x) is computed exactly as π/2 − asin(x), so whenever asin
returns a result, acos returns one with acos(x) + asin(x) = π/2. -/
theorem C5_acos_complement (ops : FloatOps) (x a : ℚ)
    (h : floatAsin ops x = .ok a) :
    ∃ c, floatAcos ops x = .ok c ∧ c + a = ops.pi / 2 := by
  refine ⟨ops.pi / 2 - a, ?_, by ring⟩
  rw [floatAcos, h]

lemma floatAsin_opsQ_zero : floatAsin opsQ 0 = .ok 0 := by
  have hs : floatSqrt opsQ (1 - 0 * 0) = .ok 1 := by
    norm_num [floatSqrt, opsQ]
  rw [floatAsin, if_neg (by norm_num), if_neg (by norm_num), hs]
  show floatAtan opsQ (0 / 1) = .ok 0
  norm_num [floatAtan]
  rw [atanF_base opsQ 3 0 le_rfl (by norm_num)]
  norm_num [opsQ]

theorem C5_acos_complement_witness :
    floatAsin opsQ 0 = .ok 0 ∧
      ∃ c, floatAcos opsQ 0 = .ok c ∧ c + 0 = opsQ.pi / 2 :=
  ⟨floatAsin_opsQ_zero, C5_acos_complement opsQ 0 0 floatAsin_opsQ_zero⟩

/-- C6: for every negative input, sqrt fails with the domain error
"square root of negative number" before performing any Newton iteration
(the result does not depend on the abstracted Newton loop at all). -/
theorem C6_sqrt_negative_error (ops : FloatOps) (x : ℚ) (h : x < 0) :
    floatSqrt ops x = .error "square root of negative number" := by
  rw [floatSqrt, if_pos h]

theorem C6_sqrt_negative_error_witness :
    (-1 : ℚ) < 0 ∧ floatSqrt opsQ (-1) = .error "square root of negative number" :=
  ⟨by norm_num, C6_sqrt_negative_error opsQ (-1) (by norm_num)⟩

/-- C7: sqrt of exactly zero returns exactly zero, with no Newton iteration
performed (the result does not depend on the abstracted Newton loop). -/
theorem C7_sqrt_zero (ops : FloatOps) : floatSqrt ops 0 = .ok 0 := by
  rw [floatSqrt, if_neg (by norm_num), if_pos rfl]

/-- C8: the recursive range reductions of atan terminate in finitely many
self-calls: fuel 4 (at most 3 nested self-calls — sign reduction plus at
most two Euler rewrites) always returns a result, and further fuel changes
nothing. -/
theorem C8_atan_reduction_terminates (ops : FloatOps) (hg : GoodOps ops)
    (x : ℚ) :
    isOkB (floatAtanF ops 4 x) = true ∧
      floatAtanF ops 5 x = floatAtanF ops 4 x :=
  ⟨atanF_ok4 ops hg x,
    atanF_mono ops 4 5 x (by omega) (atanF_ok4 ops hg x)⟩

theorem C8_atan_reduction_terminates_witness :
    GoodOps opsQ ∧ isOkB (floatAtanF opsQ 4 (-(7/5 : ℚ))) = true ∧
      floatAtanF opsQ 5 (-(7/5 : ℚ)) = floatAtanF opsQ 4 (-(7/5 : ℚ)) :=
  ⟨goodOpsQ, (C8_atan_reduction_terminates opsQ goodOpsQ (-(7/5))).1,
    (C8_atan_reduction_terminates opsQ goodOpsQ (-(7/5))).2⟩

/-- C10: the )prec special command rejects a requested precision of 0 or
greater than 10⁶ with an error, leaving the configuration unchanged, so
every precision it installs lies between 1 and 10⁶. -/
theorem C10_prec_bounds (c : Config) (p : Nat) :
    ((p = 0 ∨ 1000000 < p) →
        precCommand c p = (c, some ("illegal prec " ++ toString p))) ∧
      (∀ c', precCommand c p = (c', none) →
        1 ≤ c'.floatPrec ∧ c'.floatPrec ≤ 1000000) := by
  constructor
  · intro h
    rw [precCommand, if_pos h]
  · intro c' h
    rw [precCommand] at h
    split at h
    · exact absurd (congrArg Prod.snd h) (by simp)
    · next hp =>
        push_neg at hp
        have hc : ({ floatPrec := p } : Config) = c' := congrArg Prod.fst h
        rw [← hc]
        refine ⟨?_, ?_⟩ <;> simp <;> omega

theorem C10_prec_bounds_witness :
    precCommand { floatPrec := 256 } 0 =
        ({ floatPrec := 256 }, some ("illegal prec " ++ toString 0)) ∧
      (1 ≤ ({ floatPrec := 50 } : Config).floatPrec ∧
        ({ floatPrec := 50 } : Config).floatPrec ≤ 1000000) :=
  ⟨(C10_prec_bounds { floatPrec := 256 } 0).1 (Or.inl rfl),
    (C10_prec_bounds { floatPrec := 256 } 50).2 { floatPrec := 50 } rfl⟩
